import Mathlib

/-!
Verification of the air-quality pipeline (normalizer, dedup writer, daily
aggregation, alert checker) of the Database-reload repository.

The Python modules under `project/back/` are shallowly embedded:

* floats are modelled as exact rationals (`ℚ`);
* Python `int(x)` (truncation toward zero) is modelled by `pyInt`;
* timestamps are modelled at microsecond granularity as `ℕ`
  (microseconds since an epoch), since Python `datetime` carries
  microseconds;
* the database is modelled as a list of rows; the SQL `UNIQUE` constraints
  of `models/__init__.py` are modelled by explicit key-collision checks in
  the writer;
* fallible Python code (returning `None` / catching exceptions) is
  modelled with `Option`.
-/

/-- Python `int(x)` on a real number truncates toward zero. -/
def pyInt (q : ℚ) : ℤ := if 0 ≤ q then ⌊q⌋ else ⌈q⌉

/-! ## AQI breakpoints and converters (`jobs/normalizer.py`) -/

/-- One AQI breakpoint band, as a tuple
`(aqi_low, aqi_high, conc_low, conc_high)` of
`DataNormalizer.AQI_BREAKPOINTS` (normalizer.py lines 40-47). -/
structure Bp where
  aqiLow : ℚ
  aqiHigh : ℚ
  concLow : ℚ
  concHigh : ℚ
deriving DecidableEq

/-- `DataNormalizer.AQI_BREAKPOINTS` (normalizer.py lines 40-47),
a simplified EPA table for PM2.5. -/
def AQI_BREAKPOINTS : List Bp :=
  [⟨0, 50, 0, 12.0⟩,
   ⟨51, 100, 12.1, 35.4⟩,
   ⟨101, 150, 35.5, 55.4⟩,
   ⟨151, 200, 55.5, 150.4⟩,
   ⟨201, 300, 150.5, 250.4⟩,
   ⟨301, 500, 250.5, 500.4⟩]

/-- `DataNormalizer.UNIT_CONVERSIONS` (normalizer.py lines 32-37): the
documented conversion factors to μg/m³.  Note that the method
`_convert_to_canonical_unit` never reads this table. -/
def UNIT_CONVERSIONS : List (String × ℚ) :=
  [("ppb_no2", 1.88),
   ("ppb_o3", 1.96),
   ("ppb_so2", 2.62),
   ("ppm_co", 1145)]

/-- `DataNormalizer._convert_to_canonical_unit` (normalizer.py lines
334-342).  The body is `return value`: it ignores `unit`, `pollutant`
and the `UNIT_CONVERSIONS` table. -/
def convertToCanonicalUnit (value : ℚ) (unit : String) (pollutant : String) : ℚ :=
  value

/-- The first band of `bps` whose concentration range contains `c`;
mirrors the `for` loop of `_calculate_aqi` (normalizer.py lines 348-353). -/
def findBandConc (c : ℚ) : List Bp → Option Bp
  | [] => none
  | b :: rest => if b.concLow ≤ c ∧ c ≤ b.concHigh then some b else findBandConc c rest

/-- `DataNormalizer._calculate_aqi` (normalizer.py lines 344-357).
For PM2.5 it walks `AQI_BREAKPOINTS`, linearly interpolates inside the
first matching band and truncates with Python `int(...)`; concentrations
in no band give 500; other pollutants default to 75. -/
def calculateAqi (concentration : ℚ) (pollutant : String) : ℤ :=
  if pollutant = "PM2.5" then
    match findBandConc concentration AQI_BREAKPOINTS with
    | some b =>
        pyInt (((b.aqiHigh - b.aqiLow) / (b.concHigh - b.concLow)) *
               (concentration - b.concLow) + b.aqiLow)
    | none => 500
  else 75

/-- The first band of `bps` whose AQI range contains `aqi`; mirrors the
`for` loop of `_estimate_pm25_from_aqi` (normalizer.py lines 361-363). -/
def findBandAqi (aqi : ℤ) : List Bp → Option Bp
  | [] => none
  | b :: rest =>
      if b.aqiLow ≤ (aqi : ℚ) ∧ (aqi : ℚ) ≤ b.aqiHigh then some b
      else findBandAqi aqi rest

/-- `DataNormalizer._estimate_pm25_from_aqi` (normalizer.py lines
359-364): inverse linear interpolation inside the first band containing
`aqi`; AQI values in no band give `500.0`. -/
def estimatePm25FromAqi (aqi : ℤ) : ℚ :=
  match findBandAqi aqi AQI_BREAKPOINTS with
  | some b =>
      b.concLow + (((aqi : ℚ) - b.aqiLow) * (b.concHigh - b.concLow)) / (b.aqiHigh - b.aqiLow)
  | none => 500

example : calculateAqi 12 "PM2.5" = 50 := by
  norm_num [calculateAqi, findBandConc, AQI_BREAKPOINTS, pyInt]
example : calculateAqi 12.1 "PM2.5" = 51 := by
  norm_num [calculateAqi, findBandConc, AQI_BREAKPOINTS, pyInt]
example : calculateAqi 20 "PM2.5" = 67 := by
  norm_num [calculateAqi, findBandConc, AQI_BREAKPOINTS, pyInt]
example : calculateAqi 501 "PM2.5" = 500 := by
  norm_num [calculateAqi, findBandConc, AQI_BREAKPOINTS, pyInt]
example : calculateAqi 20 "CO" = 75 := by
  rw [calculateAqi, if_neg (by decide)]
example : estimatePm25FromAqi 501 = 500 := by
  norm_num [estimatePm25FromAqi, findBandAqi, AQI_BREAKPOINTS]
example : estimatePm25FromAqi 50 = 12 := by
  norm_num [estimatePm25FromAqi, findBandAqi, AQI_BREAKPOINTS]
example : convertToCanonicalUnit 40 "ppb" "NO2" = 40 := rfl
example : round (((100 - 51) / ((35.4 : ℚ) - 12.1)) * (20 - 12.1) + 51) = 68 := by
  norm_num [round_eq]

/-! ## Structural facts about the breakpoint table -/

lemma pyInt_eq_floor (q : ℚ) (h : 0 ≤ q) : pyInt q = ⌊q⌋ := if_pos h

/-- Every band of the table has positive AQI width, positive concentration
width, and a nonnegative lower AQI bound. -/
lemma bp_pos (b : Bp) (hb : b ∈ AQI_BREAKPOINTS) :
    0 < b.aqiHigh - b.aqiLow ∧ 0 < b.concHigh - b.concLow ∧ 0 ≤ b.aqiLow := by
  simp only [AQI_BREAKPOINTS] at hb
  fin_cases hb <;> norm_num

lemma findBandConc_band0 (c : ℚ) (h1 : (0:ℚ) ≤ c) (h2 : c ≤ 12.0) :
    findBandConc c AQI_BREAKPOINTS = some ⟨0, 50, 0, 12.0⟩ := by
  simp only [AQI_BREAKPOINTS, findBandConc]
  rw [if_pos ⟨h1, h2⟩]

lemma findBandConc_band1 (c : ℚ) (h1 : (12.1:ℚ) ≤ c) (h2 : c ≤ 35.4) :
    findBandConc c AQI_BREAKPOINTS = some ⟨51, 100, 12.1, 35.4⟩ := by
  simp only [AQI_BREAKPOINTS, findBandConc]
  rw [if_neg (by rintro ⟨-, hx⟩; linarith), if_pos ⟨h1, h2⟩]

lemma findBandConc_band2 (c : ℚ) (h1 : (35.5:ℚ) ≤ c) (h2 : c ≤ 55.4) :
    findBandConc c AQI_BREAKPOINTS = some ⟨101, 150, 35.5, 55.4⟩ := by
  simp only [AQI_BREAKPOINTS, findBandConc]
  rw [if_neg (by rintro ⟨-, hx⟩; linarith), if_neg (by rintro ⟨-, hx⟩; linarith),
    if_pos ⟨h1, h2⟩]

lemma findBandConc_band3 (c : ℚ) (h1 : (55.5:ℚ) ≤ c) (h2 : c ≤ 150.4) :
    findBandConc c AQI_BREAKPOINTS = some ⟨151, 200, 55.5, 150.4⟩ := by
  simp only [AQI_BREAKPOINTS, findBandConc]
  rw [if_neg (by rintro ⟨-, hx⟩; linarith), if_neg (by rintro ⟨-, hx⟩; linarith),
    if_neg (by rintro ⟨-, hx⟩; linarith), if_pos ⟨h1, h2⟩]

lemma findBandConc_band4 (c : ℚ) (h1 : (150.5:ℚ) ≤ c) (h2 : c ≤ 250.4) :
    findBandConc c AQI_BREAKPOINTS = some ⟨201, 300, 150.5, 250.4⟩ := by
  simp only [AQI_BREAKPOINTS, findBandConc]
  rw [if_neg (by rintro ⟨-, hx⟩; linarith), if_neg (by rintro ⟨-, hx⟩; linarith),
    if_neg (by rintro ⟨-, hx⟩; linarith), if_neg (by rintro ⟨-, hx⟩; linarith),
    if_pos ⟨h1, h2⟩]

lemma findBandConc_band5 (c : ℚ) (h1 : (250.5:ℚ) ≤ c) (h2 : c ≤ 500.4) :
    findBandConc c AQI_BREAKPOINTS = some ⟨301, 500, 250.5, 500.4⟩ := by
  simp only [AQI_BREAKPOINTS, findBandConc]
  rw [if_neg (by rintro ⟨-, hx⟩; linarith), if_neg (by rintro ⟨-, hx⟩; linarith),
    if_neg (by rintro ⟨-, hx⟩; linarith), if_neg (by rintro ⟨-, hx⟩; linarith),
    if_neg (by rintro ⟨-, hx⟩; linarith), if_pos ⟨h1, h2⟩]

/-- The bands are pairwise disjoint, so the first band the loop of
`_calculate_aqi` finds is the band containing the concentration. -/
lemma findBandConc_cover (c : ℚ) (b : Bp) (hb : b ∈ AQI_BREAKPOINTS)
    (h1 : b.concLow ≤ c) (h2 : c ≤ b.concHigh) :
    findBandConc c AQI_BREAKPOINTS = some b := by
  simp only [AQI_BREAKPOINTS] at hb
  fin_cases hb
  · exact findBandConc_band0 c h1 h2
  · exact findBandConc_band1 c h1 h2
  · exact findBandConc_band2 c h1 h2
  · exact findBandConc_band3 c h1 h2
  · exact findBandConc_band4 c h1 h2
  · exact findBandConc_band5 c h1 h2

lemma findBandAqi_band0 (a : ℤ) (h1 : (0:ℤ) ≤ a) (h2 : a ≤ 50) :
    findBandAqi a AQI_BREAKPOINTS = some ⟨0, 50, 0, 12.0⟩ := by
  simp only [AQI_BREAKPOINTS, findBandAqi]
  rw [if_pos ⟨by exact_mod_cast h1, by exact_mod_cast h2⟩]

lemma findBandAqi_band1 (a : ℤ) (h1 : (51:ℤ) ≤ a) (h2 : a ≤ 100) :
    findBandAqi a AQI_BREAKPOINTS = some ⟨51, 100, 12.1, 35.4⟩ := by
  simp only [AQI_BREAKPOINTS, findBandAqi]
  rw [if_neg (by rintro ⟨-, hx⟩; exact absurd (show a ≤ 50 by exact_mod_cast hx) (by omega)),
    if_pos ⟨by exact_mod_cast h1, by exact_mod_cast h2⟩]

lemma findBandAqi_band2 (a : ℤ) (h1 : (101:ℤ) ≤ a) (h2 : a ≤ 150) :
    findBandAqi a AQI_BREAKPOINTS = some ⟨101, 150, 35.5, 55.4⟩ := by
  simp only [AQI_BREAKPOINTS, findBandAqi]
  rw [if_neg (by rintro ⟨-, hx⟩; exact absurd (show a ≤ 50 by exact_mod_cast hx) (by omega)),
    if_neg (by rintro ⟨-, hx⟩; exact absurd (show a ≤ 100 by exact_mod_cast hx) (by omega)),
    if_pos ⟨by exact_mod_cast h1, by exact_mod_cast h2⟩]

lemma findBandAqi_band3 (a : ℤ) (h1 : (151:ℤ) ≤ a) (h2 : a ≤ 200) :
    findBandAqi a AQI_BREAKPOINTS = some ⟨151, 200, 55.5, 150.4⟩ := by
  simp only [AQI_BREAKPOINTS, findBandAqi]
  rw [if_neg (by rintro ⟨-, hx⟩; exact absurd (show a ≤ 50 by exact_mod_cast hx) (by omega)),
    if_neg (by rintro ⟨-, hx⟩; exact absurd (show a ≤ 100 by exact_mod_cast hx) (by omega)),
    if_neg (by rintro ⟨-, hx⟩; exact absurd (show a ≤ 150 by exact_mod_cast hx) (by omega)),
    if_pos ⟨by exact_mod_cast h1, by exact_mod_cast h2⟩]

lemma findBandAqi_band4 (a : ℤ) (h1 : (201:ℤ) ≤ a) (h2 : a ≤ 300) :
    findBandAqi a AQI_BREAKPOINTS = some ⟨201, 300, 150.5, 250.4⟩ := by
  simp only [AQI_BREAKPOINTS, findBandAqi]
  rw [if_neg (by rintro ⟨-, hx⟩; exact absurd (show a ≤ 50 by exact_mod_cast hx) (by omega)),
    if_neg (by rintro ⟨-, hx⟩; exact absurd (show a ≤ 100 by exact_mod_cast hx) (by omega)),
    if_neg (by rintro ⟨-, hx⟩; exact absurd (show a ≤ 150 by exact_mod_cast hx) (by omega)),
    if_neg (by rintro ⟨-, hx⟩; exact absurd (show a ≤ 200 by exact_mod_cast hx) (by omega)),
    if_pos ⟨by exact_mod_cast h1, by exact_mod_cast h2⟩]

lemma findBandAqi_band5 (a : ℤ) (h1 : (301:ℤ) ≤ a) (h2 : a ≤ 500) :
    findBandAqi a AQI_BREAKPOINTS = some ⟨301, 500, 250.5, 500.4⟩ := by
  simp only [AQI_BREAKPOINTS, findBandAqi]
  rw [if_neg (by rintro ⟨-, hx⟩; exact absurd (show a ≤ 50 by exact_mod_cast hx) (by omega)),
    if_neg (by rintro ⟨-, hx⟩; exact absurd (show a ≤ 100 by exact_mod_cast hx) (by omega)),
    if_neg (by rintro ⟨-, hx⟩; exact absurd (show a ≤ 150 by exact_mod_cast hx) (by omega)),
    if_neg (by rintro ⟨-, hx⟩; exact absurd (show a ≤ 200 by exact_mod_cast hx) (by omega)),
    if_neg (by rintro ⟨-, hx⟩; exact absurd (show a ≤ 300 by exact_mod_cast hx) (by omega)),
    if_pos ⟨by exact_mod_cast h1, by exact_mod_cast h2⟩]

/-- The AQI ranges of the bands are pairwise disjoint over the integers,
so the first band the loop of `_estimate_pm25_from_aqi` finds is the band
containing the AQI value. -/
lemma findBandAqi_cover (a : ℤ) (b : Bp) (hb : b ∈ AQI_BREAKPOINTS)
    (h1 : b.aqiLow ≤ (a:ℚ)) (h2 : (a:ℚ) ≤ b.aqiHigh) :
    findBandAqi a AQI_BREAKPOINTS = some b := by
  simp only [AQI_BREAKPOINTS] at hb
  fin_cases hb
  · exact findBandAqi_band0 a (by exact_mod_cast show (0:ℚ) ≤ (a:ℚ) from h1)
      (by exact_mod_cast show (a:ℚ) ≤ 50 from h2)
  · exact findBandAqi_band1 a (by exact_mod_cast show (51:ℚ) ≤ (a:ℚ) from h1)
      (by exact_mod_cast show (a:ℚ) ≤ 100 from h2)
  · exact findBandAqi_band2 a (by exact_mod_cast show (101:ℚ) ≤ (a:ℚ) from h1)
      (by exact_mod_cast show (a:ℚ) ≤ 150 from h2)
  · exact findBandAqi_band3 a (by exact_mod_cast show (151:ℚ) ≤ (a:ℚ) from h1)
      (by exact_mod_cast show (a:ℚ) ≤ 200 from h2)
  · exact findBandAqi_band4 a (by exact_mod_cast show (201:ℚ) ≤ (a:ℚ) from h1)
      (by exact_mod_cast show (a:ℚ) ≤ 300 from h2)
  · exact findBandAqi_band5 a (by exact_mod_cast show (301:ℚ) ≤ (a:ℚ) from h1)
      (by exact_mod_cast show (a:ℚ) ≤ 500 from h2)

/-- Integer AQI values below 0 or above 500 lie in no band. -/
lemma findBandAqi_outside (a : ℤ) (ha : a < 0 ∨ 500 < a) :
    findBandAqi a AQI_BREAKPOINTS = none := by
  have key : ∀ lo hi : ℤ, 0 ≤ lo → hi ≤ 500 →
      ¬((lo:ℚ) ≤ (a:ℚ) ∧ (a:ℚ) ≤ (hi:ℚ)) := by
    rintro lo hi hlo hhi ⟨hx, hy⟩
    have hx' : lo ≤ a := by exact_mod_cast hx
    have hy' : a ≤ hi := by exact_mod_cast hy
    omega
  simp only [AQI_BREAKPOINTS, findBandAqi]
  rw [if_neg (by exact_mod_cast key 0 50 (by omega) (by omega)),
    if_neg (by exact_mod_cast key 51 100 (by omega) (by omega)),
    if_neg (by exact_mod_cast key 101 150 (by omega) (by omega)),
    if_neg (by exact_mod_cast key 151 200 (by omega) (by omega)),
    if_neg (by exact_mod_cast key 201 300 (by omega) (by omega)),
    if_neg (by exact_mod_cast key 301 500 (by omega) (by omega))]

/-- Inside a band, `_calculate_aqi` on PM2.5 truncates the linear
interpolant of that band (Python `int()` is a floor here, since the
interpolant is nonnegative). -/
lemma calcAqi_inband (c : ℚ) (b : Bp) (hb : b ∈ AQI_BREAKPOINTS)
    (h1 : b.concLow ≤ c) (h2 : c ≤ b.concHigh) :
    calculateAqi c "PM2.5" =
      ⌊((b.aqiHigh - b.aqiLow) / (b.concHigh - b.concLow)) * (c - b.concLow) + b.aqiLow⌋ := by
  obtain ⟨hD, hC, hL⟩ := bp_pos b hb
  have hnn : 0 ≤ ((b.aqiHigh - b.aqiLow) / (b.concHigh - b.concLow)) * (c - b.concLow) + b.aqiLow := by
    have hm : 0 ≤ ((b.aqiHigh - b.aqiLow) / (b.concHigh - b.concLow)) * (c - b.concLow) :=
      mul_nonneg (le_of_lt (div_pos hD hC)) (by linarith)
    linarith
  unfold calculateAqi
  rw [if_pos rfl, findBandConc_cover c b hb h1 h2]
  exact pyInt_eq_floor _ hnn

/-- The AQI bounds of every band are integers. -/
lemma bp_int (b : Bp) (hb : b ∈ AQI_BREAKPOINTS) :
    (∃ z : ℤ, b.aqiLow = (z:ℚ)) ∧ (∃ z : ℤ, b.aqiHigh = (z:ℚ)) := by
  simp only [AQI_BREAKPOINTS] at hb
  fin_cases hb
  · exact ⟨⟨0, by norm_num⟩, ⟨50, by norm_num⟩⟩
  · exact ⟨⟨51, by norm_num⟩, ⟨100, by norm_num⟩⟩
  · exact ⟨⟨101, by norm_num⟩, ⟨150, by norm_num⟩⟩
  · exact ⟨⟨151, by norm_num⟩, ⟨200, by norm_num⟩⟩
  · exact ⟨⟨201, by norm_num⟩, ⟨300, by norm_num⟩⟩
  · exact ⟨⟨301, by norm_num⟩, ⟨500, by norm_num⟩⟩

/-- The truncated interpolant stays inside the band's AQI range. -/
lemma calcAqi_inband_range (c : ℚ) (b : Bp) (hb : b ∈ AQI_BREAKPOINTS)
    (h1 : b.concLow ≤ c) (h2 : c ≤ b.concHigh) :
    b.aqiLow ≤ (calculateAqi c "PM2.5" : ℚ) ∧ (calculateAqi c "PM2.5" : ℚ) ≤ b.aqiHigh := by
  obtain ⟨hD, hC, hL⟩ := bp_pos b hb
  have hiq := bp_int b hb
  rw [calcAqi_inband c b hb h1 h2]
  set e : ℚ := ((b.aqiHigh - b.aqiLow) / (b.concHigh - b.concLow)) * (c - b.concLow) + b.aqiLow with he
  have he1 : b.aqiLow ≤ e := by
    have hm : 0 ≤ ((b.aqiHigh - b.aqiLow) / (b.concHigh - b.concLow)) * (c - b.concLow) :=
      mul_nonneg (le_of_lt (div_pos hD hC)) (by linarith)
    simp only [he]; linarith
  have he2 : e ≤ b.aqiHigh := by
    have hm : ((b.aqiHigh - b.aqiLow) / (b.concHigh - b.concLow)) * (c - b.concLow) ≤
        ((b.aqiHigh - b.aqiLow) / (b.concHigh - b.concLow)) * (b.concHigh - b.concLow) :=
      mul_le_mul_of_nonneg_left (by linarith) (le_of_lt (div_pos hD hC))
    rw [div_mul_cancel₀ _ (ne_of_gt hC)] at hm
    simp only [he]; linarith
  constructor
  · obtain ⟨zLo, hzLo⟩ := hiq.1
    rw [hzLo]
    exact_mod_cast Int.le_floor.mpr (by rw [← hzLo]; exact he1)
  · calc ((⌊e⌋ : ℚ)) ≤ e := Int.floor_le e
      _ ≤ b.aqiHigh := he2

/-- Inside a band, `_estimate_pm25_from_aqi` inverts linearly in that band. -/
lemma estimate_inband (a : ℤ) (b : Bp) (hb : b ∈ AQI_BREAKPOINTS)
    (h1 : b.aqiLow ≤ (a:ℚ)) (h2 : (a:ℚ) ≤ b.aqiHigh) :
    estimatePm25FromAqi a =
      b.concLow + (((a:ℚ) - b.aqiLow) * (b.concHigh - b.concLow)) / (b.aqiHigh - b.aqiLow) := by
  unfold estimatePm25FromAqi
  rw [findBandAqi_cover a b hb h1 h2]

/-- Concentrations above every band match no band of the table. -/
lemma findBandConc_above (c : ℚ) (hc : (500.4:ℚ) < c) :
    findBandConc c AQI_BREAKPOINTS = none := by
  simp only [AQI_BREAKPOINTS, findBandConc]
  rw [if_neg (by rintro ⟨-, hx⟩; linarith), if_neg (by rintro ⟨-, hx⟩; linarith),
    if_neg (by rintro ⟨-, hx⟩; linarith), if_neg (by rintro ⟨-, hx⟩; linarith),
    if_neg (by rintro ⟨-, hx⟩; linarith), if_neg (by rintro ⟨-, hx⟩; linarith)]

/-! ## Claim theorems for the unit and AQI converters -/

/-- C2: the claim says `_convert_to_canonical_unit` multiplies by the
documented factor, so 40 ppb of NO2 becomes 75.2 µg/m³.  The code instead
returns the value unchanged — the stub ignores the `UNIT_CONVERSIONS`
table it documents, so the claim describes the intent and the code is a
slip.  This theorem evaluates the code at the failing input. -/
theorem C2_conversion_is_stub :
    convertToCanonicalUnit 40 "ppb" "NO2" = 40 ∧
    ("ppb_no2", (1.88:ℚ)) ∈ UNIT_CONVERSIONS ∧
    (40:ℚ) * 1.88 = 75.2 ∧
    convertToCanonicalUnit 40 "ppb" "NO2" ≠ 75.2 := by
  refine ⟨rfl, ?_, by norm_num, ?_⟩
  · simp [UNIT_CONVERSIONS]
  · unfold convertToCanonicalUnit
    norm_num

/-- C3 counterexample: 20 µg/m³ lies inside the 12.1-35.4 band; the
claim's `round` formula gives 68 there, but `_calculate_aqi` gives 67
(it truncates with `int(...)`). -/
theorem C3_counterexample :
    (⟨51, 100, 12.1, 35.4⟩ : Bp) ∈ AQI_BREAKPOINTS ∧
    (12.1:ℚ) ≤ 20 ∧ (20:ℚ) ≤ 35.4 ∧
    calculateAqi 20 "PM2.5" ≠
      round (((100 - 51) / ((35.4:ℚ) - 12.1)) * (20 - 12.1) + 51) := by
  refine ⟨by simp [AQI_BREAKPOINTS], by norm_num, by norm_num, ?_⟩
  have h1 : calculateAqi 20 "PM2.5" = 67 := by
    norm_num [calculateAqi, findBandConc, AQI_BREAKPOINTS, pyInt]
  have h2 : round (((100 - 51) / ((35.4:ℚ) - 12.1)) * (20 - 12.1) + 51) = 68 := by
    norm_num [round_eq]
  rw [h1, h2]
  norm_num

/-- C3 (amended): inside a breakpoint band `_calculate_aqi` returns the
band's linear interpolant truncated by Python `int(...)` (a floor, not
`round`); concentration 12.0 yields AQI 50, 12.1 yields 51, and any
concentration above all bands yields 500. -/
theorem C3_calculate_aqi :
    (∀ (c : ℚ) (b : Bp), b ∈ AQI_BREAKPOINTS → b.concLow ≤ c → c ≤ b.concHigh →
        calculateAqi c "PM2.5" =
          ⌊((b.aqiHigh - b.aqiLow) / (b.concHigh - b.concLow)) * (c - b.concLow) + b.aqiLow⌋) ∧
    calculateAqi 12 "PM2.5" = 50 ∧
    calculateAqi 12.1 "PM2.5" = 51 ∧
    (∀ c : ℚ, 500.4 < c → calculateAqi c "PM2.5" = 500) := by
  refine ⟨fun c b hb h1 h2 => calcAqi_inband c b hb h1 h2,
    by norm_num [calculateAqi, findBandConc, AQI_BREAKPOINTS, pyInt],
    by norm_num [calculateAqi, findBandConc, AQI_BREAKPOINTS, pyInt], ?_⟩
  intro c hc
  unfold calculateAqi
  rw [if_pos rfl, findBandConc_above c hc]

/-- C3 witness: the amended theorem applied at concentration 20 in the
12.1-35.4 band; the truncated interpolant evaluates to 67. -/
theorem C3_calculate_aqi_witness : calculateAqi 20 "PM2.5" = 67 := by
  have h := C3_calculate_aqi.1 20 ⟨51, 100, 12.1, 35.4⟩
    (by simp [AQI_BREAKPOINTS]) (by norm_num) (by norm_num)
  rw [h]
  norm_num

/-- C7 counterexample: 501 lies outside all bands; the claim says the
estimator returns the highest band's upper concentration bound (500.4),
but the code returns the constant 500.0. -/
theorem C7_counterexample :
    estimatePm25FromAqi 501 = 500 ∧
    (⟨301, 500, 250.5, 500.4⟩ : Bp) ∈ AQI_BREAKPOINTS ∧
    (∀ b ∈ AQI_BREAKPOINTS, b.concHigh ≤ 500.4) ∧
    (500:ℚ) ≠ 500.4 := by
  refine ⟨by norm_num [estimatePm25FromAqi, findBandAqi, AQI_BREAKPOINTS],
    by simp [AQI_BREAKPOINTS], ?_, by norm_num⟩
  intro b hb
  simp only [AQI_BREAKPOINTS] at hb
  fin_cases hb <;> norm_num

/-- C7 (amended): for an AQI inside a band, `_estimate_pm25_from_aqi`
returns the band's inverse linear interpolant, which lies inside the
band's concentration range; for any integer AQI outside all bands
(below 0 or above 500) it returns the constant 500.0, which is not the
highest band's upper concentration bound 500.4. -/
theorem C7_estimate :
    (∀ (a : ℤ) (b : Bp), b ∈ AQI_BREAKPOINTS → b.aqiLow ≤ (a:ℚ) → (a:ℚ) ≤ b.aqiHigh →
        estimatePm25FromAqi a =
          b.concLow + (((a:ℚ) - b.aqiLow) * (b.concHigh - b.concLow)) / (b.aqiHigh - b.aqiLow) ∧
        b.concLow ≤ estimatePm25FromAqi a ∧ estimatePm25FromAqi a ≤ b.concHigh) ∧
    (∀ a : ℤ, a < 0 ∨ 500 < a → estimatePm25FromAqi a = 500) := by
  constructor
  · intro a b hb h1 h2
    obtain ⟨hD, hC, hL⟩ := bp_pos b hb
    have heq := estimate_inband a b hb h1 h2
    refine ⟨heq, ?_, ?_⟩
    · rw [heq]
      have hnn : 0 ≤ (((a:ℚ) - b.aqiLow) * (b.concHigh - b.concLow)) / (b.aqiHigh - b.aqiLow) :=
        div_nonneg (mul_nonneg (by linarith) (by linarith)) (by linarith)
      linarith
    · rw [heq]
      have hstep : ((a:ℚ) - b.aqiLow) * (b.concHigh - b.concLow) ≤
          (b.aqiHigh - b.aqiLow) * (b.concHigh - b.concLow) :=
        mul_le_mul_of_nonneg_right (by linarith) (le_of_lt hC)
      have hdiv : (((a:ℚ) - b.aqiLow) * (b.concHigh - b.concLow)) / (b.aqiHigh - b.aqiLow) ≤
          b.concHigh - b.concLow := by
        rw [div_le_iff₀ hD]
        nlinarith [hstep]
      linarith
  · intro a ha
    unfold estimatePm25FromAqi
    rw [findBandAqi_outside a ha]

/-- C7 witness: the amended theorem applied at AQI 60 inside the
51-100 band. -/
theorem C7_estimate_witness :
    estimatePm25FromAqi 60 = 12.1 + (((60:ℚ) - 51) * (35.4 - 12.1)) / (100 - 51) ∧
    (12.1:ℚ) ≤ estimatePm25FromAqi 60 ∧ estimatePm25FromAqi 60 ≤ 35.4 :=
  C7_estimate.1 60 ⟨51, 100, 12.1, 35.4⟩ (by simp [AQI_BREAKPOINTS])
    (by norm_num) (by norm_num)

/-- C8: for any concentration inside a defined band, estimating PM2.5
back from the computed AQI returns the concentration up to that band's
concentration-per-AQI-point step. -/
theorem C8_roundtrip (c : ℚ) (b : Bp) (hb : b ∈ AQI_BREAKPOINTS)
    (h1 : b.concLow ≤ c) (h2 : c ≤ b.concHigh) :
    |estimatePm25FromAqi (calculateAqi c "PM2.5") - c| ≤
      (b.concHigh - b.concLow) / (b.aqiHigh - b.aqiLow) := by
  obtain ⟨hD, hC, hL⟩ := bp_pos b hb
  obtain ⟨hlo, hhi⟩ := calcAqi_inband_range c b hb h1 h2
  have hest := estimate_inband (calculateAqi c "PM2.5") b hb hlo hhi
  have hcalc := calcAqi_inband c b hb h1 h2
  set e : ℚ := ((b.aqiHigh - b.aqiLow) / (b.concHigh - b.concLow)) * (c - b.concLow) + b.aqiLow
    with hedef
  have hD0 : b.aqiHigh - b.aqiLow ≠ 0 := ne_of_gt hD
  have hC0 : b.concHigh - b.concLow ≠ 0 := ne_of_gt hC
  have hfl : ((calculateAqi c "PM2.5" : ℚ)) ≤ e := by
    rw [hcalc]; exact_mod_cast Int.floor_le e
  have hfu : e < (calculateAqi c "PM2.5" : ℚ) + 1 := by
    rw [hcalc]; exact_mod_cast Int.lt_floor_add_one e
  have hkey : estimatePm25FromAqi (calculateAqi c "PM2.5") - c =
      ((calculateAqi c "PM2.5" : ℚ) - e) * ((b.concHigh - b.concLow) / (b.aqiHigh - b.aqiLow)) := by
    rw [hest, hedef]
    field_simp
    ring
  rw [hkey, abs_mul, abs_of_pos (div_pos hC hD)]
  have habs : |((calculateAqi c "PM2.5" : ℚ)) - e| ≤ 1 := by
    rw [abs_le]
    constructor <;> linarith
  calc |((calculateAqi c "PM2.5" : ℚ)) - e| * ((b.concHigh - b.concLow) / (b.aqiHigh - b.aqiLow))
      ≤ 1 * ((b.concHigh - b.concLow) / (b.aqiHigh - b.aqiLow)) :=
        mul_le_mul_of_nonneg_right habs (le_of_lt (div_pos hC hD))
    _ = (b.concHigh - b.concLow) / (b.aqiHigh - b.aqiLow) := one_mul _

/-- C8 witness: the round-trip bound at concentration 20 inside the
12.1-35.4 band. -/
theorem C8_roundtrip_witness :
    |estimatePm25FromAqi (calculateAqi 20 "PM2.5") - 20| ≤
      ((35.4:ℚ) - 12.1) / (100 - 51) :=
  C8_roundtrip 20 ⟨51, 100, 12.1, 35.4⟩ (by simp [AQI_BREAKPOINTS])
    (by norm_num) (by norm_num)

/-! ## The dedup writer (`DataNormalizer.normalize_and_save`, `_save_reading`) -/

/-- One row of the `airqualityreading` table
(`models/__init__.py`, class `AirQualityReading`): `value` is
`nullable=False`, `aqi` is nullable; `ts` is the `datetime` column in
microseconds.  `provider_id`, `raw_json` and `created_at` play no role in
the claims and are omitted. -/
structure Reading where
  station : ℕ
  pollutant : ℕ
  ts : ℕ
  value : ℚ
  aqi : Option ℤ
deriving DecidableEq

/-- The column triple of the `uq_reading` unique constraint
(`models/__init__.py` lines 105-108). -/
def readingKey (r : Reading) : ℕ × ℕ × ℕ := (r.station, r.pollutant, r.ts)

def keysOf (l : List Reading) : List (ℕ × ℕ × ℕ) := l.map readingKey

/-- The outcome counters of `normalize_and_save`
(normalizer.py lines 75-82). -/
structure Stats where
  total : ℕ
  validated : ℕ
  saved : ℕ
  duplicates : ℕ
  errors : ℕ
deriving DecidableEq

def initStats (n : ℕ) : Stats :=
  { total := n, validated := 0, saved := 0, duplicates := 0, errors := 0 }

/-- `DataNormalizer._save_reading` (normalizer.py lines 280-305) inside
an open transaction: `committed` are the rows visible from previous
commits, `pending` the rows flushed in this transaction.  All candidate
rows of one record are added and flushed together; a key collision with
any visible row (or within the candidate list) raises `IntegrityError`,
and `db.rollback()` then discards every uncommitted row of the
transaction.  Returns the new pending list and the boolean result. -/
def saveReading (committed pending rs : List Reading) : List Reading × Bool :=
  if (keysOf rs).Nodup ∧ ∀ k ∈ keysOf rs, k ∉ keysOf (committed ++ pending) then
    (pending ++ rs, true)
  else
    ([], false)

/-- The body of the `for record in raw_data` loop of `normalize_and_save`
(normalizer.py lines 84-106): a record whose normalization yields `None`
or an empty list counts as an error; otherwise it is validated and saved,
a failed save counting as a duplicate. -/
def processRecord {α : Type} (committed : List Reading)
    (normalize : α → Option (List Reading)) :
    List Reading × Stats → α → List Reading × Stats
  | (pending, stats), record =>
    match normalize record with
    | none => (pending, { stats with errors := stats.errors + 1 })
    | some [] => (pending, { stats with errors := stats.errors + 1 })
    | some (r :: rs) =>
        if (saveReading committed pending (r :: rs)).2 then
          ((saveReading committed pending (r :: rs)).1,
           { stats with validated := stats.validated + 1, saved := stats.saved + 1 })
        else
          ((saveReading committed pending (r :: rs)).1,
           { stats with validated := stats.validated + 1,
                        duplicates := stats.duplicates + 1 })

/-- `DataNormalizer.normalize_and_save` (normalizer.py lines 54-117):
processes the batch in one transaction and commits at the end.  The
normalization step is passed as a function, standing for
`_normalize_record` applied to each raw record.  Returns the committed
table and the statistics. -/
def normalizeAndSave {α : Type} (normalize : α → Option (List Reading))
    (records : List α) (committed : List Reading) : List Reading × Stats :=
  let run := records.foldl (processRecord committed normalize)
    ([], initStats records.length)
  (committed ++ run.1, run.2)

lemma keysOf_append (l1 l2 : List Reading) :
    keysOf (l1 ++ l2) = keysOf l1 ++ keysOf l2 := List.map_append _ _ _

lemma keysOf_nil : keysOf [] = [] := rfl

/-- A record whose candidates all have fresh, pairwise distinct keys is
flushed successfully: validated and saved are counted and the candidates
join the pending rows. -/
lemma processRecord_fresh {α : Type} (committed pending : List Reading) (stats : Stats)
    (normalize : α → Option (List Reading)) (r : α) (cr : List Reading)
    (hnr : normalize r = some cr) (hne : cr ≠ [])
    (hnd : (keysOf cr).Nodup)
    (hfr : ∀ k ∈ keysOf cr, k ∉ keysOf (committed ++ pending)) :
    processRecord committed normalize (pending, stats) r =
      (pending ++ cr,
       { stats with validated := stats.validated + 1, saved := stats.saved + 1 }) := by
  cases hcr : cr with
  | nil => exact absurd hcr hne
  | cons x xs =>
    subst hcr
    have hsave : saveReading committed pending (x :: xs) = (pending ++ x :: xs, true) := by
      unfold saveReading
      rw [if_pos ⟨hnd, hfr⟩]
    simp [processRecord, hnr, hsave]

/-- A record one of whose candidates collides (or whose candidate list
repeats a key) is rolled back entirely: validated and duplicates are
counted, and the whole transaction's pending rows are discarded. -/
lemma processRecord_dup {α : Type} (committed pending : List Reading) (stats : Stats)
    (normalize : α → Option (List Reading)) (r : α) (cr : List Reading)
    (hnr : normalize r = some cr) (hne : cr ≠ [])
    (hdup : ¬((keysOf cr).Nodup ∧ ∀ k ∈ keysOf cr, k ∉ keysOf (committed ++ pending))) :
    processRecord committed normalize (pending, stats) r =
      ([], { stats with validated := stats.validated + 1,
                        duplicates := stats.duplicates + 1 }) := by
  cases hcr : cr with
  | nil => exact absurd hcr hne
  | cons x xs =>
    subst hcr
    have hsave : saveReading committed pending (x :: xs) = ([], false) := by
      unfold saveReading
      rw [if_neg hdup]
    simp [processRecord, hnr, hsave]

/-- A batch whose candidates are nonempty with globally distinct keys,
all fresh with respect to the committed table, saves everything. -/
lemma foldl_all_fresh {α : Type} (committed : List Reading)
    (normalize : α → Option (List Reading)) (cands : α → List Reading) :
    ∀ (records : List α) (pending : List Reading) (stats : Stats),
      (∀ r ∈ records, normalize r = some (cands r) ∧ cands r ≠ []) →
      (keysOf (pending ++ records.flatMap cands)).Nodup →
      (∀ k ∈ keysOf (records.flatMap cands), k ∉ keysOf committed) →
      records.foldl (processRecord committed normalize) (pending, stats) =
        (pending ++ records.flatMap cands,
         { stats with validated := stats.validated + records.length,
                      saved := stats.saved + records.length }) := by
  intro records
  induction records with
  | nil =>
    intro pending stats _ _ _
    simp
  | cons r rest ih =>
    intro pending stats hall hnd hfresh
    obtain ⟨hnr, hne⟩ := hall r (List.mem_cons_self r rest)
    have hflat : (r :: rest).flatMap cands = cands r ++ rest.flatMap cands :=
      List.flatMap_cons ..
    rw [hflat] at hnd hfresh
    rw [keysOf_append, keysOf_append] at hnd
    rw [keysOf_append] at hfresh
    have hndc : (keysOf (cands r)).Nodup := by
      have := (List.nodup_append.mp hnd).2.1
      exact (List.nodup_append.mp this).1
    have hfr : ∀ k ∈ keysOf (cands r), k ∉ keysOf (committed ++ pending) := by
      intro k hk
      rw [keysOf_append, List.mem_append]
      rintro (hc | hp)
      · exact hfresh k (List.mem_append_left _ hk) hc
      · exact (List.nodup_append.mp hnd).2.2 hp (List.mem_append_left _ hk)
    have hstep := processRecord_fresh committed pending stats normalize r (cands r) hnr hne hndc hfr
    rw [List.foldl_cons, hstep, ih (pending ++ cands r) _
      (fun x hx => hall x (List.mem_cons_of_mem r hx)) ?_ ?_]
    · rw [hflat]
      refine congrArg₂ Prod.mk ?_ ?_
      · simp [List.append_assoc]
      · simp only [Stats.mk.injEq, List.length_cons, true_and, and_true]
        omega
    · rw [keysOf_append, keysOf_append]
      rw [← List.append_assoc] at hnd
      exact hnd
    · intro k hk
      exact hfresh k (List.mem_append_right _ hk)

/-- A batch all of whose records have a nonempty candidate list headed by
an already-committed key is rejected record by record: everything is
counted as validated and duplicate, and nothing joins pending. -/
lemma foldl_all_dup {α : Type} (committed : List Reading)
    (normalize : α → Option (List Reading)) (cands : α → List Reading) :
    ∀ (records : List α) (stats : Stats),
      (∀ r ∈ records, normalize r = some (cands r) ∧ cands r ≠ [] ∧
        ∃ x ∈ cands r, readingKey x ∈ keysOf committed) →
      records.foldl (processRecord committed normalize) ([], stats) =
        ([], { stats with validated := stats.validated + records.length,
                          duplicates := stats.duplicates + records.length }) := by
  intro records
  induction records with
  | nil =>
    intro stats _
    simp
  | cons r rest ih =>
    intro stats hall
    obtain ⟨hnr, hne, x, hx, hxk⟩ := hall r (List.mem_cons_self r rest)
    have hdup : ¬((keysOf (cands r)).Nodup ∧
        ∀ k ∈ keysOf (cands r), k ∉ keysOf (committed ++ [])) := by
      rintro ⟨-, hfr⟩
      exact hfr (readingKey x) (List.mem_map_of_mem readingKey hx)
        (by rw [List.append_nil]; exact hxk)
    have hstep := processRecord_dup committed [] stats normalize r (cands r) hnr hne hdup
    rw [List.foldl_cons, hstep, ih _ (fun y hy => hall y (List.mem_cons_of_mem r hy))]
    refine congrArg₂ Prod.mk rfl ?_
    simp only [Stats.mk.injEq, List.length_cons, true_and, and_true]
    omega

/-- Number of occurrences of a key in a key list. -/
def countKey (l : List (ℕ × ℕ × ℕ)) (k : ℕ × ℕ × ℕ) : ℕ :=
  l.countP (fun j => decide (j = k))

lemma countKey_append (l1 l2 : List (ℕ × ℕ × ℕ)) (k : ℕ × ℕ × ℕ) :
    countKey (l1 ++ l2) k = countKey l1 k + countKey l2 k :=
  List.countP_append _ _ _

lemma countKey_eq_zero (l : List (ℕ × ℕ × ℕ)) (k : ℕ × ℕ × ℕ) (h : k ∉ l) :
    countKey l k = 0 := by
  rw [countKey, List.countP_eq_zero]
  intro a ha
  simp only [decide_eq_true_eq]
  rintro rfl
  exact h ha

lemma countKey_eq_one (l : List (ℕ × ℕ × ℕ)) (k : ℕ × ℕ × ℕ)
    (hd : l.Nodup) (hm : k ∈ l) : countKey l k = 1 := by
  induction l with
  | nil => simp at hm
  | cons x xs ih =>
    rw [countKey, List.countP_cons]
    rcases List.mem_cons.mp hm with rfl | hm2
    · have hx : k ∉ xs := (List.nodup_cons.mp hd).1
      have h0 : List.countP (fun j => decide (j = k)) xs = 0 := countKey_eq_zero xs k hx
      simp [h0]
    · have hne : ¬(x = k) := by
        rintro rfl
        exact (List.nodup_cons.mp hd).1 hm2
      have h1 : List.countP (fun j => decide (j = k)) xs = 1 :=
        ih (List.nodup_cons.mp hd).2 hm2
      simp [h1, hne]

/-- C1: for payloads already persisted (all candidate keys fresh on the
first run, pairwise distinct, each record normalizing to a nonempty
candidate list), submitting the identical payload again through
`normalize_and_save` leaves the persisted readings unchanged, exactly one
reading per (station, pollutant, timestamp) key exists afterwards, and
every repeated record is counted as a duplicate rather than an error —
the uniqueness violation is absorbed, not raised. -/
theorem C1_idempotent_reingest {α : Type} (records : List α)
    (normalize : α → Option (List Reading)) (cands : α → List Reading)
    (committed : List Reading)
    (hn : ∀ r ∈ records, normalize r = some (cands r))
    (hne : ∀ r ∈ records, cands r ≠ [])
    (hnd : (keysOf (records.flatMap cands)).Nodup)
    (hfresh : ∀ k ∈ keysOf (records.flatMap cands), k ∉ keysOf committed) :
    (normalizeAndSave normalize records
        (normalizeAndSave normalize records committed).1).1 =
      (normalizeAndSave normalize records committed).1 ∧
    (normalizeAndSave normalize records
        (normalizeAndSave normalize records committed).1).2.duplicates = records.length ∧
    (normalizeAndSave normalize records
        (normalizeAndSave normalize records committed).1).2.errors = 0 ∧
    (normalizeAndSave normalize records
        (normalizeAndSave normalize records committed).1).2.saved = 0 ∧
    ∀ r ∈ records, ∀ x ∈ cands r,
      countKey (keysOf (normalizeAndSave normalize records
        (normalizeAndSave normalize records committed).1).1) (readingKey x) = 1 := by
  have hrun1 : (normalizeAndSave normalize records committed).1 =
      committed ++ records.flatMap cands := by
    unfold normalizeAndSave
    rw [foldl_all_fresh committed normalize cands records [] (initStats records.length)
      (fun r hr => ⟨hn r hr, hne r hr⟩) (by simpa using hnd) hfresh]
    simp
  have hmem : ∀ r ∈ records, ∀ x ∈ cands r,
      readingKey x ∈ keysOf (records.flatMap cands) := by
    intro r hr x hx
    exact List.mem_map_of_mem readingKey (List.mem_flatMap.mpr ⟨r, hr, hx⟩)
  have hdupall : ∀ r ∈ records, normalize r = some (cands r) ∧ cands r ≠ [] ∧
      ∃ x ∈ cands r, readingKey x ∈ keysOf (committed ++ records.flatMap cands) := by
    intro r hr
    refine ⟨hn r hr, hne r hr, ?_⟩
    cases hcr : cands r with
    | nil => exact absurd hcr (hne r hr)
    | cons x xs =>
      have hxmem : x ∈ cands r := by
        rw [hcr]
        exact List.mem_cons_self x xs
      refine ⟨x, List.mem_cons_self x xs, ?_⟩
      rw [keysOf_append]
      exact List.mem_append_right _ (hmem r hr x hxmem)
  have hrun2 : normalizeAndSave normalize records (committed ++ records.flatMap cands) =
      (committed ++ records.flatMap cands,
       { total := records.length, validated := records.length, saved := 0,
         duplicates := records.length, errors := 0 }) := by
    unfold normalizeAndSave
    rw [foldl_all_dup (committed ++ records.flatMap cands) normalize cands records
      (initStats records.length) hdupall]
    simp [initStats]
  rw [hrun1, hrun2]
  refine ⟨rfl, rfl, rfl, rfl, ?_⟩
  intro r hr x hx
  rw [keysOf_append, countKey_append]
  have h0 : countKey (keysOf committed) (readingKey x) = 0 :=
    countKey_eq_zero _ _ (fun hmem0 => hfresh (readingKey x) (hmem r hr x hx) hmem0)
  have h1 : countKey (keysOf (records.flatMap cands)) (readingKey x) = 1 :=
    countKey_eq_one _ _ hnd (hmem r hr x hx)
  rw [h0, h1]

/-- C1 witness: one record with a single fresh candidate reading,
ingested twice from the empty table. -/
theorem C1_idempotent_reingest_witness :
    (normalizeAndSave (fun _ : Unit => some [⟨1, 1, 0, 10, some 40⟩]) [()]
        ((normalizeAndSave (fun _ : Unit => some [⟨1, 1, 0, 10, some 40⟩]) [()] []).1)).1 =
      (normalizeAndSave (fun _ : Unit => some [⟨1, 1, 0, 10, some 40⟩]) [()] []).1 ∧
    (normalizeAndSave (fun _ : Unit => some [⟨1, 1, 0, 10, some 40⟩]) [()]
        ((normalizeAndSave (fun _ : Unit => some [⟨1, 1, 0, 10, some 40⟩]) [()] []).1)).2.duplicates = 1 ∧
    (normalizeAndSave (fun _ : Unit => some [⟨1, 1, 0, 10, some 40⟩]) [()]
        ((normalizeAndSave (fun _ : Unit => some [⟨1, 1, 0, 10, some 40⟩]) [()] []).1)).2.errors = 0 := by
  have h := C1_idempotent_reingest [()] (fun _ : Unit => some [⟨1, 1, 0, 10, some 40⟩])
    (fun _ : Unit => [⟨1, 1, 0, 10, some 40⟩]) []
    (fun _ _ => rfl) (fun _ _ => by simp)
    (by simp [keysOf, readingKey]) (by simp [keysOf])
  exact ⟨h.1, h.2.1, h.2.2.1⟩

/-- C10: a record normalizing to two or more candidates where any single
candidate's key collides is persisted all-or-nothing: `_save_reading`
returns failure with the transaction's pending rows discarded (so none of
the record's candidates — the non-duplicates included — survives), and
the batch loop counts the whole record as exactly one duplicate. -/
theorem C10_record_rollback {α : Type} (committed pending : List Reading)
    (stats : Stats) (normalize : α → Option (List Reading)) (r : α)
    (cr : List Reading) (hnr : normalize r = some cr) (hlen : 2 ≤ cr.length)
    (hcol : ∃ x ∈ cr, readingKey x ∈ keysOf (committed ++ pending)) :
    saveReading committed pending cr = ([], false) ∧
    processRecord committed normalize (pending, stats) r =
      ([], { stats with validated := stats.validated + 1,
                        duplicates := stats.duplicates + 1 }) := by
  have hne : cr ≠ [] := by
    intro h
    rw [h] at hlen
    simp at hlen
  obtain ⟨x, hx, hxk⟩ := hcol
  have hdup : ¬((keysOf cr).Nodup ∧ ∀ k ∈ keysOf cr, k ∉ keysOf (committed ++ pending)) := by
    rintro ⟨-, hfr⟩
    exact hfr (readingKey x) (List.mem_map_of_mem readingKey hx) hxk
  constructor
  · unfold saveReading
    rw [if_neg hdup]
  · exact processRecord_dup committed pending stats normalize r cr hnr hne hdup

/-- C10 witness: a two-candidate record whose first candidate repeats a
committed key; the fresh second candidate is rolled back with it. -/
theorem C10_record_rollback_witness :
    saveReading [⟨1, 1, 0, 10, some 40⟩] [] [⟨1, 1, 0, 10, some 40⟩, ⟨2, 1, 0, 11, some 41⟩] =
      ([], false) ∧
    processRecord [⟨1, 1, 0, 10, some 40⟩]
        (fun _ : Unit => some [⟨1, 1, 0, 10, some 40⟩, ⟨2, 1, 0, 11, some 41⟩])
        ([], initStats 1) () =
      ([], { initStats 1 with validated := 1, duplicates := 1 }) :=
  C10_record_rollback [⟨1, 1, 0, 10, some 40⟩] [] (initStats 1)
    (fun _ : Unit => some [⟨1, 1, 0, 10, some 40⟩, ⟨2, 1, 0, 11, some 41⟩]) ()
    [⟨1, 1, 0, 10, some 40⟩, ⟨2, 1, 0, 11, some 41⟩] rfl (by simp)
    ⟨⟨1, 1, 0, 10, some 40⟩, by simp, by simp [keysOf, readingKey]⟩

/-! ## Provider dispatch (`DataNormalizer._normalize_record`) -/

/-- Python `provider.lower()` on the character list of a string. -/
def toLowerChars (s : String) : List Char := s.data.map Char.toLower

/-- Whether `needle` is an initial segment of `hay`. -/
def leadsWith : List Char → List Char → Bool
  | [], _ => true
  | _ :: _, [] => false
  | a :: as, b :: bs => a == b && leadsWith as bs

/-- Python's `needle in hay` substring test on character lists. -/
def hasSubChars (needle : List Char) : List Char → Bool
  | [] => needle.isEmpty
  | hay@(_ :: rest) => leadsWith needle hay || hasSubChars needle rest

/-- `DataNormalizer._normalize_record` (normalizer.py lines 119-136):
dispatches on substrings of the lowercased provider name; an unknown
provider logs a warning and returns `None`.  The three family
normalizers (`_normalize_aqicn`, `_normalize_google`, `_normalize_iqair`)
parse provider-specific JSON and are abstracted as functions; each
catches its own exceptions and returns a list. -/
def normalizeRecord {ρ : Type} (aqicnFn googleFn iqairFn : ρ → List Reading)
    (provider : String) (record : ρ) : Option (List Reading) :=
  if hasSubChars "aqicn".data (toLowerChars provider) ||
     hasSubChars "waqi".data (toLowerChars provider) then
    some (aqicnFn record)
  else if hasSubChars "google".data (toLowerChars provider) then
    some (googleFn record)
  else if hasSubChars "iqair".data (toLowerChars provider) then
    some (iqairFn record)
  else
    none

/-- A batch whose records all normalize to `None` is counted entirely as
errors while the loop completes and the pending rows stay untouched. -/
lemma foldl_all_none {α : Type} (committed : List Reading)
    (normalize : α → Option (List Reading)) :
    ∀ (records : List α) (pending : List Reading) (stats : Stats),
      (∀ r ∈ records, normalize r = none) →
      records.foldl (processRecord committed normalize) (pending, stats) =
        (pending, { stats with errors := stats.errors + records.length }) := by
  intro records
  induction records with
  | nil =>
    intro pending stats _
    simp
  | cons r rest ih =>
    intro pending stats hall
    have hnr : normalize r = none := hall r (List.mem_cons_self r rest)
    have hstep : processRecord committed normalize (pending, stats) r =
        (pending, { stats with errors := stats.errors + 1 }) := by
      simp [processRecord, hnr]
    rw [List.foldl_cons, hstep, ih pending _ (fun y hy => hall y (List.mem_cons_of_mem r hy))]
    refine congrArg₂ Prod.mk rfl ?_
    simp only [Stats.mk.injEq, List.length_cons, true_and, and_true]
    omega

/-! ## The alert checker (`jobs/alert_checker_job.py`) -/

/-- One row of the `alert` table, restricted to the columns
`_check_and_notify_alert` reads. -/
structure Alert where
  id : ℕ
  station : ℕ
  pollutant : ℕ
  threshold : ℚ
  trigger : String
deriving DecidableEq

/-- The cooldown map key
`f"{alert.id}_{alert.station_id}_{alert.pollutant_id}"`
(alert_checker_job.py line 100); decimal components make the string
injective, so the triple is an exact model. -/
def alertKey (a : Alert) : ℕ × ℕ × ℕ := (a.id, a.station, a.pollutant)

/-- `AlertCheckerJob._check_condition` (alert_checker_job.py lines
121-136): unknown condition strings log a warning and are not met. -/
def checkCondition (value threshold : ℚ) (condition : String) : Bool :=
  if condition = "exceeds" then decide (value > threshold)
  else if condition = "below" then decide (value < threshold)
  else if condition = "equals" then decide (|value - threshold| < 0.01)
  else false

/-- `AlertCheckerJob._check_and_notify_alert` (alert_checker_job.py lines
66-119).  `now` is `datetime.utcnow()` in seconds, `recentReading` the
most recent matching reading of the last five minutes (the database query
abstracted), `sendOk` the outcome of the externally-owned
`_send_alert_notification`, and `state` the process-local
`last_notifications` map.  Returns whether a notification was sent and
the updated map. -/
def checkAndNotifyAlert (now : ℚ) (alert : Alert) (recentReading : Option Reading)
    (sendOk : Bool) (state : ℕ × ℕ × ℕ → Option ℚ) :
    Bool × (ℕ × ℕ × ℕ → Option ℚ) :=
  match recentReading with
  | none => (false, state)
  | some rd =>
      if checkCondition rd.value alert.threshold alert.trigger = false then
        (false, state)
      else
        match state (alertKey alert) with
        | some t =>
            if now - t < 1800 then (false, state)
            else if sendOk then (true, Function.update state (alertKey alert) (some now))
            else (false, state)
        | none =>
            if sendOk then (true, Function.update state (alertKey alert) (some now))
            else (false, state)

/-- C5: after a successful notification was recorded at time `t`, every
evaluation of the same alert at a time `now` with `now - t` under 30
minutes is suppressed — whatever the reading, the condition outcome and
the would-be send outcome — leaving the cooldown map unchanged; and a
dispatch that does go through (condition met, no cooldown in force, send
succeeded) records its time, so a continuously met condition yields
exactly one notification per 30-minute window. -/
theorem C5_cooldown_suppression :
    (∀ (now t : ℚ) (alert : Alert) (rd : Option Reading) (sendOk : Bool)
        (state : ℕ × ℕ × ℕ → Option ℚ),
        state (alertKey alert) = some t → now - t < 1800 →
        checkAndNotifyAlert now alert rd sendOk state = (false, state)) ∧
    (∀ (now : ℚ) (alert : Alert) (rd : Reading) (state : ℕ × ℕ × ℕ → Option ℚ),
        checkCondition rd.value alert.threshold alert.trigger = true →
        (state (alertKey alert) = none ∨
          ∃ t, state (alertKey alert) = some t ∧ 1800 ≤ now - t) →
        checkAndNotifyAlert now alert (some rd) true state =
          (true, Function.update state (alertKey alert) (some now))) := by
  constructor
  · intro now t alert rd sendOk state hlast hwin
    cases rd with
    | none => rfl
    | some r =>
      unfold checkAndNotifyAlert
      rcases hc : checkCondition r.value alert.threshold alert.trigger with _ | _
      · simp [hc]
      · simp only [hc]
        rw [hlast]
        simp [hwin]
  · intro now alert rd state hc hcool
    unfold checkAndNotifyAlert
    simp only [hc]
    rcases hcool with hnone | ⟨t, hsome, hge⟩
    · rw [hnone]
      simp
    · rw [hsome]
      have : ¬(now - t < 1800) := not_lt.mpr hge
      simp [this]

/-- C5 witness: a notification recorded at time 0 suppresses an
evaluation at time 600 (10 minutes later). -/
theorem C5_cooldown_suppression_witness :
    checkAndNotifyAlert 600 ⟨1, 1, 1, 50, "exceeds"⟩ (some ⟨1, 1, 0, 99, some 150⟩) true
      (fun _ => some 0) = (false, fun _ => some 0) :=
  C5_cooldown_suppression.1 600 0 ⟨1, 1, 1, 50, "exceeds"⟩ (some ⟨1, 1, 0, 99, some 150⟩)
    true (fun _ => some 0) rfl (by norm_num)

/-- C9: a provider name containing none of the known family substrings
makes `_normalize_record` return `None` without raising; a whole batch of
such records completes, counted as errors, with the stored table
unchanged; and an alert whose trigger condition is none of
exceeds/below/equals evaluates to not-met without raising, the evaluation
returning with the cooldown map unchanged. -/
theorem C9_unknown_provider_and_condition :
    (∀ (ρ : Type) (aqicnFn googleFn iqairFn : ρ → List Reading)
        (provider : String) (record : ρ),
        hasSubChars "aqicn".data (toLowerChars provider) = false →
        hasSubChars "waqi".data (toLowerChars provider) = false →
        hasSubChars "google".data (toLowerChars provider) = false →
        hasSubChars "iqair".data (toLowerChars provider) = false →
        normalizeRecord aqicnFn googleFn iqairFn provider record = none) ∧
    (∀ (ρ : Type) (aqicnFn googleFn iqairFn : ρ → List Reading)
        (provider : String) (records : List ρ) (committed : List Reading),
        hasSubChars "aqicn".data (toLowerChars provider) = false →
        hasSubChars "waqi".data (toLowerChars provider) = false →
        hasSubChars "google".data (toLowerChars provider) = false →
        hasSubChars "iqair".data (toLowerChars provider) = false →
        normalizeAndSave (normalizeRecord aqicnFn googleFn iqairFn provider)
            records committed =
          (committed, { total := records.length, validated := 0, saved := 0,
                        duplicates := 0, errors := records.length })) ∧
    (∀ (value threshold : ℚ) (condition : String),
        condition ≠ "exceeds" → condition ≠ "below" → condition ≠ "equals" →
        checkCondition value threshold condition = false) ∧
    (∀ (now : ℚ) (alert : Alert) (rd : Reading) (sendOk : Bool)
        (state : ℕ × ℕ × ℕ → Option ℚ),
        alert.trigger ≠ "exceeds" → alert.trigger ≠ "below" → alert.trigger ≠ "equals" →
        checkAndNotifyAlert now alert (some rd) sendOk state = (false, state)) := by
  have hdispatch : ∀ (ρ : Type) (aqicnFn googleFn iqairFn : ρ → List Reading)
      (provider : String) (record : ρ),
      hasSubChars "aqicn".data (toLowerChars provider) = false →
      hasSubChars "waqi".data (toLowerChars provider) = false →
      hasSubChars "google".data (toLowerChars provider) = false →
      hasSubChars "iqair".data (toLowerChars provider) = false →
      normalizeRecord aqicnFn googleFn iqairFn provider record = none := by
    intro ρ f g h provider record h1 h2 h3 h4
    simp [normalizeRecord, h1, h2, h3, h4]
  have hcond : ∀ (value threshold : ℚ) (condition : String),
      condition ≠ "exceeds" → condition ≠ "below" → condition ≠ "equals" →
      checkCondition value threshold condition = false := by
    intro v t cond h1 h2 h3
    simp [checkCondition, h1, h2, h3]
  refine ⟨hdispatch, ?_, hcond, ?_⟩
  · intro ρ f g h provider records committed h1 h2 h3 h4
    unfold normalizeAndSave
    rw [foldl_all_none committed _ records [] (initStats records.length)
      (fun r _ => hdispatch ρ f g h provider r h1 h2 h3 h4)]
    simp [initStats]
  · intro now alert rd sendOk state h1 h2 h3
    unfold checkAndNotifyAlert
    simp [hcond rd.value alert.threshold alert.trigger h1 h2 h3]

/-- C9 witness: provider name "openweather" matches no family; an alert
condition "rises" is not met; a one-record batch completes as one error. -/
theorem C9_unknown_provider_and_condition_witness :
    normalizeRecord (fun _ : Unit => []) (fun _ => []) (fun _ => []) "openweather" () = none ∧
    normalizeAndSave
        (normalizeRecord (fun _ : Unit => []) (fun _ => []) (fun _ => []) "openweather")
        [()] [] =
      ([], { total := 1, validated := 0, saved := 0, duplicates := 0, errors := 1 }) ∧
    checkCondition 99 50 "rises" = false :=
  ⟨C9_unknown_provider_and_condition.1 Unit _ _ _ "openweather" ()
      (by decide) (by decide) (by decide) (by decide),
   C9_unknown_provider_and_condition.2.1 Unit _ _ _ "openweather" [()] []
      (by decide) (by decide) (by decide) (by decide),
   C9_unknown_provider_and_condition.2.2.1 99 50 "rises"
      (by decide) (by decide) (by decide)⟩

/-! ## Daily aggregation (`jobs/daily_aggregation_job.py`) -/

/-- Microseconds per day; Python `datetime` has microsecond precision,
`datetime.min.time()` is 00:00:00.000000 and `datetime.max.time()` is
23:59:59.999999. -/
def usPerDay : ℕ := 86400000000

def dayStart (d : ℕ) : ℕ := usPerDay * d

def dayEnd (d : ℕ) : ℕ := usPerDay * d + (usPerDay - 1)

/-- One row of the `airqualitydailystats` table
(`models/__init__.py`, class `AirQualityDailyStats`). -/
structure DailyStat where
  station : ℕ
  pollutant : ℕ
  date : ℕ
  avgValue : ℚ
  avgAqi : Option ℤ
  maxAqi : Option ℤ
  minAqi : Option ℤ
  readingsCount : ℕ
deriving DecidableEq

/-- The column triple of the `uq_daily_stats` unique constraint
(`models/__init__.py` lines 267-270). -/
def statKey (row : DailyStat) : ℕ × ℕ × ℕ := (row.station, row.pollutant, row.date)

/-- The query filter of `_aggregate_for_station_pollutant`
(daily_aggregation_job.py lines 116-126): readings of the station and
pollutant whose timestamp lies between `datetime.combine(target_date,
datetime.min.time())` and `datetime.combine(target_date,
datetime.max.time())` inclusive. -/
def selectDay (db : List Reading) (s p d : ℕ) : List Reading :=
  db.filter (fun r => decide (r.station = s ∧ r.pollutant = p ∧
    dayStart d ≤ r.ts ∧ r.ts ≤ dayEnd d))

/-- The `aggregates` dictionary (daily_aggregation_job.py lines 132-148):
`value` is a `nullable=False` column, so the code's `is not None` filter
on values keeps every selected row; `aqi` is nullable and is filtered. -/
def aggRow (db : List Reading) (s p d : ℕ) : DailyStat :=
  { station := s, pollutant := p, date := d,
    avgValue := ((selectDay db s p d).map (fun r => r.value)).sum /
      (((selectDay db s p d).map (fun r => r.value)).length : ℚ),
    avgAqi := if (selectDay db s p d).filterMap (fun r => r.aqi) = [] then none
      else some (pyInt
        ((((((selectDay db s p d).filterMap (fun r => r.aqi)).sum : ℤ)) : ℚ) /
          ((((selectDay db s p d).filterMap (fun r => r.aqi)).length : ℕ) : ℚ))),
    maxAqi := ((selectDay db s p d).filterMap (fun r => r.aqi)).max?,
    minAqi := ((selectDay db s p d).filterMap (fun r => r.aqi)).min?,
    readingsCount := (selectDay db s p d).length }

/-- The predicate of the `existing` query
(daily_aggregation_job.py lines 151-155). -/
def keyMatch (s p d : ℕ) (row : DailyStat) : Bool :=
  decide (row.station = s ∧ row.pollutant = p ∧ row.date = d)

/-- In-place mutation of the first row a `.first()` query returns:
the `setattr` loop of daily_aggregation_job.py lines 157-162 overwrites
every non-key column, and the key columns already agree, so the first
matching row becomes `v`. -/
def updateFirst (p : DailyStat → Bool) (v : DailyStat) : List DailyStat → List DailyStat
  | [] => []
  | x :: xs => if p x then v :: xs else x :: updateFirst p v xs

/-- `DailyAggregationJob._aggregate_for_station_pollutant`
(daily_aggregation_job.py lines 103-167): select the day's readings,
skip when none (or when no non-null values), else upsert the aggregate
row keyed by (station, pollutant, date). -/
def aggregateFor (db : List Reading) (table : List DailyStat) (s p d : ℕ) :
    List DailyStat × String :=
  if selectDay db s p d = [] then (table, "skipped")
  else if (selectDay db s p d).map (fun r => r.value) = [] then (table, "skipped")
  else
    match table.find? (keyMatch s p d) with
    | some _ => (updateFirst (keyMatch s p d) (aggRow db s p d) table, "updated")
    | none => (table ++ [aggRow db s p d], "created")

/-- Number of rows of the stats table carrying a given key. -/
def countStat (table : List DailyStat) (k : ℕ × ℕ × ℕ) : ℕ :=
  table.countP (fun row => decide (statKey row = k))

lemma updateFirst_length (p : DailyStat → Bool) (v : DailyStat) :
    ∀ l : List DailyStat, (updateFirst p v l).length = l.length := by
  intro l
  induction l with
  | nil => rfl
  | cons x xs ih =>
    rw [updateFirst]
    by_cases hx : p x = true
    · rw [if_pos hx]
      simp
    · rw [if_neg hx]
      simp [ih]

lemma updateFirst_countP (p q : DailyStat → Bool) (v : DailyStat)
    (h : ∀ x, p x = true → q x = q v) :
    ∀ l : List DailyStat, (updateFirst p v l).countP q = l.countP q := by
  intro l
  induction l with
  | nil => rfl
  | cons x xs ih =>
    rw [updateFirst]
    by_cases hx : p x = true
    · rw [if_pos hx]
      simp [List.countP_cons, h x hx]
    · rw [if_neg hx]
      simp [List.countP_cons, ih]

lemma updateFirst_idem (p : DailyStat → Bool) (v : DailyStat) (hv : p v = true) :
    ∀ l : List DailyStat, updateFirst p v (updateFirst p v l) = updateFirst p v l := by
  intro l
  induction l with
  | nil => rfl
  | cons x xs ih =>
    rw [updateFirst]
    by_cases hx : p x = true
    · rw [if_pos hx, updateFirst, if_pos hv]
    · rw [if_neg hx, updateFirst, if_neg hx, ih]

lemma updateFirst_mem (p : DailyStat → Bool) (v : DailyStat) :
    ∀ (l : List DailyStat) (x : DailyStat), l.find? p = some x →
      v ∈ updateFirst p v l := by
  intro l
  induction l with
  | nil => intro x h; simp at h
  | cons y ys ih =>
    intro x h
    rw [updateFirst]
    by_cases hy : p y = true
    · rw [if_pos hy]
      exact List.mem_cons_self v ys
    · rw [List.find?_cons_of_neg _ (by simpa using hy)] at h
      rw [if_neg hy]
      exact List.mem_cons_of_mem y (ih x h)

lemma find?_updateFirst (p : DailyStat → Bool) (v : DailyStat) (hv : p v = true) :
    ∀ (l : List DailyStat) (x : DailyStat), l.find? p = some x →
      (updateFirst p v l).find? p = some v := by
  intro l
  induction l with
  | nil => intro x h; simp at h
  | cons y ys ih =>
    intro x h
    rw [updateFirst]
    by_cases hy : p y = true
    · rw [if_pos hy, List.find?_cons_of_pos _ hv]
    · rw [List.find?_cons_of_neg _ (by simpa using hy)] at h
      rw [if_neg hy, List.find?_cons_of_neg _ (by simpa using hy)]
      exact ih x h

lemma find?_append_single (p : DailyStat → Bool) (v : DailyStat) (hv : p v = true) :
    ∀ l : List DailyStat, l.find? p = none → (l ++ [v]).find? p = some v := by
  intro l
  induction l with
  | nil => intro _; simp [List.find?_cons_of_pos _ hv]
  | cons y ys ih =>
    intro h
    by_cases hy : p y = true
    · rw [List.find?_cons_of_pos _ hy] at h
      exact absurd h (by simp)
    · rw [List.find?_cons_of_neg _ (by simpa using hy)] at h
      rw [List.cons_append, List.find?_cons_of_neg _ (by simpa using hy)]
      exact ih h

lemma updateFirst_append_self (p : DailyStat → Bool) (v : DailyStat) :
    ∀ l : List DailyStat, l.find? p = none →
      updateFirst p v (l ++ [v]) = l ++ [v] := by
  intro l
  induction l with
  | nil =>
    intro _
    by_cases hv : p v = true
    · simp [updateFirst, hv]
    · simp [updateFirst, hv]
  | cons y ys ih =>
    intro h
    by_cases hy : p y = true
    · rw [List.find?_cons_of_pos _ hy] at h
      exact absurd h (by simp)
    · rw [List.find?_cons_of_neg _ (by simpa using hy)] at h
      rw [List.cons_append, updateFirst, if_neg hy, ih h]

lemma keyMatch_aggRow (db : List Reading) (s p d : ℕ) :
    keyMatch s p d (aggRow db s p d) = true := by
  simp [keyMatch, aggRow]

lemma statKey_aggRow (db : List Reading) (s p d : ℕ) :
    statKey (aggRow db s p d) = (s, p, d) := by
  simp [statKey, aggRow]

lemma keyMatch_iff_statKey (s p d : ℕ) (row : DailyStat) :
    keyMatch s p d row = true ↔ statKey row = (s, p, d) := by
  simp [keyMatch, statKey, Prod.ext_iff]

/-- C4: daily aggregation preserves the at-most-one-row-per-key
invariant of the `uq_daily_stats` constraint: if the key's row exists it
is updated in place (the table keeps its length), otherwise at most one
row is created, and re-running the aggregation for the same date leaves
the table exactly as it is — never a second row for the key. -/
theorem C4_dailystat_upsert (db : List Reading) (table : List DailyStat) (s p d : ℕ)
    (hU : ∀ k, countStat table k ≤ 1) :
    (∀ k, countStat (aggregateFor db table s p d).1 k ≤ 1) ∧
    (aggregateFor db (aggregateFor db table s p d).1 s p d).1 =
      (aggregateFor db table s p d).1 ∧
    ((table.find? (keyMatch s p d)).isSome →
      (aggregateFor db table s p d).1.length = table.length) := by
  by_cases h1 : selectDay db s p d = []
  · have ht : aggregateFor db table s p d = (table, "skipped") := by
      unfold aggregateFor
      rw [if_pos h1]
    rw [ht]
    exact ⟨hU, by rw [ht], fun _ => rfl⟩
  · have h2 : ¬((selectDay db s p d).map (fun r => r.value) = []) := by
      intro h
      exact h1 (List.map_eq_nil_iff.mp h)
    have hagg := keyMatch_aggRow db s p d
    cases hfind : table.find? (keyMatch s p d) with
    | some x =>
      have ht : aggregateFor db table s p d =
          (updateFirst (keyMatch s p d) (aggRow db s p d) table, "updated") := by
        unfold aggregateFor
        rw [if_neg h1, if_neg h2, hfind]
      have e1 : (aggregateFor db table s p d).1 =
          updateFirst (keyMatch s p d) (aggRow db s p d) table := by
        rw [ht]
      have hfind2 : (updateFirst (keyMatch s p d) (aggRow db s p d) table).find?
          (keyMatch s p d) = some (aggRow db s p d) :=
        find?_updateFirst _ _ hagg table x hfind
      refine ⟨?_, ?_, ?_⟩
      · intro k
        rw [e1]
        have hq : ∀ y, keyMatch s p d y = true →
            (fun row => decide (statKey row = k)) y =
              (fun row => decide (statKey row = k)) (aggRow db s p d) := by
          intro y hy
          simp only [(keyMatch_iff_statKey s p d y).mp hy, statKey_aggRow]
        have heq : countStat (updateFirst (keyMatch s p d) (aggRow db s p d) table) k =
            countStat table k :=
          updateFirst_countP _ _ _ hq table
        rw [heq]
        exact hU k
      · rw [e1]
        unfold aggregateFor
        rw [if_neg h1, if_neg h2, hfind2]
        exact updateFirst_idem _ _ hagg table
      · intro _
        rw [e1]
        exact updateFirst_length _ _ table
    | none =>
      have ht : aggregateFor db table s p d =
          (table ++ [aggRow db s p d], "created") := by
        unfold aggregateFor
        rw [if_neg h1, if_neg h2, hfind]
      have e1 : (aggregateFor db table s p d).1 = table ++ [aggRow db s p d] := by
        rw [ht]
      refine ⟨?_, ?_, ?_⟩
      · intro k
        rw [e1]
        have hsplit : countStat (table ++ [aggRow db s p d]) k =
            countStat table k + countStat [aggRow db s p d] k :=
          List.countP_append _ _ _
        rw [hsplit]
        by_cases hk : (s, p, d) = k
        · have h0 : countStat table k = 0 := by
            rw [countStat, List.countP_eq_zero]
            intro row hrow
            simp only [decide_eq_true_eq]
            intro hkey
            have : keyMatch s p d row = true :=
              (keyMatch_iff_statKey s p d row).mpr (by rw [hkey, ← hk])
            exact absurd this (by
              have := List.find?_eq_none.mp hfind row hrow
              simpa using this)
          have h1a : countStat [aggRow db s p d] k ≤ 1 := by
            rw [countStat]
            exact le_trans (List.countP_le_length _) (by simp)
          omega
        · have h0 : countStat [aggRow db s p d] k = 0 := by
            rw [countStat, List.countP_eq_zero]
            intro row hrow
            simp only [List.mem_singleton] at hrow
            subst hrow
            simp only [decide_eq_true_eq, statKey_aggRow]
            exact hk
          rw [h0]
          simpa using hU k
      · rw [e1]
        unfold aggregateFor
        rw [if_neg h1, if_neg h2, find?_append_single _ _ hagg table hfind]
        exact updateFirst_append_self _ _ table hfind
      · intro hsome
        simp at hsome

/-- C4 witness: one reading aggregated into an empty stats table; the
re-run leaves the created row untouched. -/
theorem C4_dailystat_upsert_witness :
    (aggregateFor [⟨1, 1, 0, 10, some 40⟩]
        ((aggregateFor [⟨1, 1, 0, 10, some 40⟩] [] 1 1 0).1) 1 1 0).1 =
      (aggregateFor [⟨1, 1, 0, 10, some 40⟩] [] 1 1 0).1 :=
  (C4_dailystat_upsert [⟨1, 1, 0, 10, some 40⟩] [] 1 1 0
    (fun k => by simp [countStat])).2.1

/-- C6: the day filter selects exactly the readings whose timestamp has
the target calendar date (the inclusive `[00:00:00, 23:59:59.999999]`
window equals date equality at microsecond granularity); an empty
selection writes no row and reports "skipped"; a nonempty selection
upserts a row keyed by (station, pollutant, date) carrying the average
value, truncated average AQI, maximum and minimum AQI and the reading
count over exactly the selected readings; readings with AQI values
[40, 60, 80] yield avgAqi=60, maxAqi=80, minAqi=40, readingsCount=3. -/
theorem C6_daily_aggregation :
    (∀ (db : List Reading) (s p d : ℕ),
        selectDay db s p d = db.filter (fun r =>
          decide (r.station = s ∧ r.pollutant = p ∧ r.ts / usPerDay = d))) ∧
    (∀ (db : List Reading) (table : List DailyStat) (s p d : ℕ),
        selectDay db s p d = [] → aggregateFor db table s p d = (table, "skipped")) ∧
    (∀ (db : List Reading) (table : List DailyStat) (s p d : ℕ),
        selectDay db s p d ≠ [] →
        aggRow db s p d ∈ (aggregateFor db table s p d).1 ∧
        statKey (aggRow db s p d) = (s, p, d) ∧
        (aggregateFor db table s p d).2 ≠ "skipped" ∧
        (aggRow db s p d).readingsCount = (selectDay db s p d).length ∧
        (aggRow db s p d).avgValue =
          ((selectDay db s p d).map (fun r => r.value)).sum /
            (((selectDay db s p d).map (fun r => r.value)).length : ℚ) ∧
        (aggRow db s p d).maxAqi =
          ((selectDay db s p d).filterMap (fun r => r.aqi)).max? ∧
        (aggRow db s p d).minAqi =
          ((selectDay db s p d).filterMap (fun r => r.aqi)).min?) ∧
    aggregateFor [⟨1, 1, 0, 10, some 40⟩, ⟨1, 1, 1, 20, some 60⟩, ⟨1, 1, 2, 30, some 80⟩]
        [] 1 1 0 =
      ([{ station := 1, pollutant := 1, date := 0, avgValue := 20,
          avgAqi := some 60, maxAqi := some 80, minAqi := some 40,
          readingsCount := 3 }], "created") := by
  refine ⟨?_, ?_, ?_, ?_⟩
  · intro db s p d
    unfold selectDay
    apply List.filter_congr
    intro r _
    apply decide_eq_decide.mpr
    have hw : (dayStart d ≤ r.ts ∧ r.ts ≤ dayEnd d) ↔ r.ts / usPerDay = d := by
      unfold dayStart dayEnd usPerDay
      omega
    constructor
    · rintro ⟨hs, hp, hw1, hw2⟩
      exact ⟨hs, hp, hw.mp ⟨hw1, hw2⟩⟩
    · rintro ⟨hs, hp, hdq⟩
      exact ⟨hs, hp, (hw.mpr hdq).1, (hw.mpr hdq).2⟩
  · intro db table s p d h
    unfold aggregateFor
    rw [if_pos h]
  · intro db table s p d h1
    have h2 : ¬((selectDay db s p d).map (fun r => r.value) = []) := by
      intro h
      exact h1 (List.map_eq_nil_iff.mp h)
    have hagg := keyMatch_aggRow db s p d
    refine ⟨?_, statKey_aggRow db s p d, ?_, rfl, rfl, rfl, rfl⟩
    · cases hfind : table.find? (keyMatch s p d) with
      | some x =>
        have ht : (aggregateFor db table s p d).1 =
            updateFirst (keyMatch s p d) (aggRow db s p d) table := by
          unfold aggregateFor
          rw [if_neg h1, if_neg h2, hfind]
        rw [ht]
        exact updateFirst_mem _ _ table x hfind
      | none =>
        have ht : (aggregateFor db table s p d).1 = table ++ [aggRow db s p d] := by
          unfold aggregateFor
          rw [if_neg h1, if_neg h2, hfind]
        rw [ht]
        exact List.mem_append_right _ (List.mem_singleton_self _)
    · cases hfind : table.find? (keyMatch s p d) with
      | some x =>
        have ht : (aggregateFor db table s p d).2 = "updated" := by
          unfold aggregateFor
          rw [if_neg h1, if_neg h2, hfind]
        rw [ht]
        decide
      | none =>
        have ht : (aggregateFor db table s p d).2 = "created" := by
          unfold aggregateFor
          rw [if_neg h1, if_neg h2, hfind]
        rw [ht]
        decide
  · have hsel : selectDay
        [⟨1, 1, 0, 10, some 40⟩, ⟨1, 1, 1, 20, some 60⟩, ⟨1, 1, 2, 30, some 80⟩] 1 1 0 =
        [⟨1, 1, 0, 10, some 40⟩, ⟨1, 1, 1, 20, some 60⟩, ⟨1, 1, 2, 30, some 80⟩] := by
      simp [selectDay, dayStart, dayEnd, usPerDay, List.filter]
    have hrow : aggRow
        [⟨1, 1, 0, 10, some 40⟩, ⟨1, 1, 1, 20, some 60⟩, ⟨1, 1, 2, 30, some 80⟩] 1 1 0 =
        { station := 1, pollutant := 1, date := 0, avgValue := 20,
          avgAqi := some 60, maxAqi := some 80, minAqi := some 40,
          readingsCount := 3 } := by
      unfold aggRow
      rw [hsel]
      have hfm : (([⟨1, 1, 0, 10, some 40⟩, ⟨1, 1, 1, 20, some 60⟩,
          ⟨1, 1, 2, 30, some 80⟩] : List Reading).filterMap (fun r => r.aqi)) =
          ([40, 60, 80] : List ℤ) := rfl
      have hvm : (([⟨1, 1, 0, 10, some 40⟩, ⟨1, 1, 1, 20, some 60⟩,
          ⟨1, 1, 2, 30, some 80⟩] : List Reading).map (fun r => r.value)) =
          ([10, 20, 30] : List ℚ) := rfl
      rw [hfm, hvm]
      simp only [DailyStat.mk.injEq]
      rw [show (([40, 60, 80] : List ℤ)).sum = (180 : ℤ) from by decide]
      norm_num [pyInt,
        show List.max? ([40, 60, 80] : List ℤ) = some 80 from by decide,
        show List.min? ([40, 60, 80] : List ℤ) = some 40 from by decide]
      intro h
      simp at h
    unfold aggregateFor
    rw [hrow, hsel]
    rw [if_neg (by simp), if_neg (by simp)]
    rfl

/-- C6 witness: an empty selection is skipped; a one-reading day writes
its aggregate row. -/
theorem C6_daily_aggregation_witness :
    aggregateFor [] [] 1 1 0 = ([], "skipped") ∧
    aggRow [⟨1, 1, 0, 10, some 40⟩] 1 1 0 ∈
      (aggregateFor [⟨1, 1, 0, 10, some 40⟩] [] 1 1 0).1 :=
  ⟨C6_daily_aggregation.2.1 [] [] 1 1 0 rfl,
   (C6_daily_aggregation.2.2.1 [⟨1, 1, 0, 10, some 40⟩] [] 1 1 0
      (by simp [selectDay, dayStart, dayEnd, usPerDay])).1⟩
